import Mathlib

/-!
Verification development for the ucp trust-mesh protocol engine
(src/src-tauri/src: crypto.rs, peer.rs, state.rs, protocol.rs, lib.rs).

Shallow embedding conventions:
* Byte strings (Rust Vec<u8> / &[u8]) are List Nat.
* Rust HashMap<String, V> is an association list List (String × V) with
  unique keys; insert replaces, remove erases.
* The external chacha20poly1305 crate is modelled as an ideal
  authenticated cipher: the ciphertext body carries the key and the
  plaintext symbolically, so decryption succeeds exactly when the same
  key is supplied, and fails closed otherwise (tag mismatch).  The
  crypto.rs wrappers (nonce prepend on encrypt, the 12-byte minimum
  length check and nonce split on decrypt) are translated literally.
* The external base64 engine is modelled as the identity on bytes:
  fields that hold base64 strings in Rust hold the decoded bytes here.
* The external spake2 crate (symmetric Ed25519 mode) is modelled
  algebraically: the outbound message carries the blinded randomness and
  the password hash; finish fails only on a malformed message, and the
  derived key is a function of the local password and both messages that
  agrees across the two sides exactly when the passwords agree.  This
  mode has no key confirmation, which the model preserves.
* Fresh randomness (nonces, new cluster keys, generated names and PINs,
  SPAKE2 scalars) is passed in as explicit parameters.
* Wall-clock reads are passed in as explicit `now` parameters.
-/

set_option autoImplicit false

namespace Ucp

/-- Byte strings. -/
abbrev Bytes := List Nat

/-! ### Association-list model of HashMap<String, V> -/

/-- Lookup in an association list (HashMap::get). -/
def lookupA {α : Type} : List (String × α) → String → Option α
  | [], _ => none
  | kv :: rest, key => if kv.1 = key then some kv.2 else lookupA rest key

/-- Remove every binding of a key (HashMap::remove). -/
def eraseA {α : Type} : List (String × α) → String → List (String × α)
  | [], _ => []
  | kv :: rest, key => if kv.1 = key then eraseA rest key else kv :: eraseA rest key

/-- Insert-or-replace a binding (HashMap::insert). -/
def insertA {α : Type} (l : List (String × α)) (key : String) (v : α) : List (String × α) :=
  eraseA l key ++ [(key, v)]

theorem lookupA_eraseA {α : Type} (l : List (String × α)) (k₀ k : String) :
    lookupA (eraseA l k₀) k = if k = k₀ then none else lookupA l k := by
  induction l with
  | nil => by_cases h : k = k₀ <;> simp [eraseA, lookupA, h]
  | cons kv rest ih =>
    by_cases h1 : kv.1 = k₀
    · rw [eraseA, if_pos h1, ih]
      by_cases h : k = k₀
      · simp [h]
      · have hne : ¬ kv.1 = k := fun hc => h (by rw [← hc, h1])
        simp [h, lookupA, hne]
    · rw [eraseA, if_neg h1]
      by_cases h2 : kv.1 = k
      · have hne : ¬ k = k₀ := fun hc => h1 (h2.trans hc)
        simp [lookupA, h2, hne]
      · simp [lookupA, h2, ih]

theorem lookupA_append {α : Type} (a b : List (String × α)) (k : String) :
    lookupA (a ++ b) k = ((lookupA a k).map some).getD (lookupA b k) := by
  induction a with
  | nil => simp [lookupA]
  | cons kv rest ih =>
    by_cases h1 : kv.1 = k <;> simp [lookupA, h1, ih]

theorem lookupA_insertA {α : Type} (l : List (String × α)) (k₀ k : String) (v : α) :
    lookupA (insertA l k₀ v) k = if k = k₀ then some v else lookupA l k := by
  rw [insertA, lookupA_append, lookupA_eraseA]
  by_cases h : k = k₀
  · simp [lookupA, h]
  · have h' : ¬ k₀ = k := fun hc => h hc.symm
    cases hl : lookupA l k <;> simp [lookupA, h, h', hl]

theorem mem_of_lookupA {α : Type} {l : List (String × α)} {k : String} {v : α}
    (h : lookupA l k = some v) : (k, v) ∈ l := by
  induction l with
  | nil => simp [lookupA] at h
  | cons kv rest ih =>
    rw [lookupA] at h
    by_cases h1 : kv.1 = k
    · rw [if_pos h1] at h
      have h2 : kv.2 = v := by injection h
      have hkv : (k, v) = kv := by
        cases kv
        simp_all
      rw [hkv]
      exact List.mem_cons_self _ _
    · rw [if_neg h1] at h
      exact List.mem_cons_of_mem _ (ih h)

theorem lookupA_eq_of_mem {α : Type} {l : List (String × α)} {k : String} {v : α}
    (hnd : (l.map Prod.fst).Nodup) (hm : (k, v) ∈ l) : lookupA l k = some v := by
  induction l with
  | nil => simp at hm
  | cons kv rest ih =>
    rw [List.map_cons, List.nodup_cons] at hnd
    cases hm with
    | head => simp [lookupA]
    | tail _ hm' =>
      have hne : kv.1 ≠ k := by
        intro hc
        exact hnd.1 (by rw [hc]; exact List.mem_map_of_mem Prod.fst hm')
      rw [lookupA, if_neg hne]
      exact ih hnd.2 hm'

/-! ### Crypto primitives (crypto.rs) -/

/-- Bool test for a failed Except result. -/
def isError {ε α : Type} : Except ε α → Bool
  | .error _ => true
  | .ok _ => false

/-- Ideal-AEAD sealed body: carries the key and the plaintext
symbolically, standing in for ciphertext-plus-authentication-tag of the
external ChaCha20Poly1305 cipher. -/
def sealBody (key pt : Bytes) : Bytes :=
  key ++ pt

/-- crypto.rs encrypt: an ideal-cipher model of ChaCha20Poly1305.  The
real function draws a fresh random 12-byte nonce; here the nonce is an
explicit parameter.  The output is nonce followed by the sealed body,
mirroring result = nonce then ciphertext in the source. -/
def encrypt (key nonce pt : Bytes) : Bytes :=
  nonce ++ sealBody key pt

/-- crypto.rs decrypt: rejects blobs shorter than 12 bytes, splits off
the 12-byte nonce, and opens the body, failing closed unless the body
was sealed under the same key (AEAD tag mismatch). -/
def decrypt (key : Bytes) (blob : Bytes) : Except String Bytes :=
  if blob.length < 12 then
    .error "Ciphertext too short"
  else if (blob.drop 12).take 32 = key then
    .ok ((blob.drop 12).drop 32)
  else
    .error "Decryption failure"

theorem encrypt_drop (key nonce m : Bytes) (hnonce : nonce.length = 12) :
    (encrypt key nonce m).drop 12 = key ++ m := by
  have h : (encrypt key nonce m).drop 12 = (nonce ++ (key ++ m)).drop nonce.length := by
    simp [encrypt, sealBody, hnonce]
  rw [h, List.drop_left]

theorem encrypt_length (key nonce m : Bytes)
    (hkey : key.length = 32) (hnonce : nonce.length = 12) :
    (encrypt key nonce m).length = 44 + m.length := by
  simp [encrypt, sealBody, hkey, hnonce]
  omega

theorem decrypt_encrypt (key nonce m : Bytes)
    (hkey : key.length = 32) (hnonce : nonce.length = 12) :
    decrypt key (encrypt key nonce m) = .ok m := by
  have hlen := encrypt_length key nonce m hkey hnonce
  have hdrop := encrypt_drop key nonce m hnonce
  have htake : ((key ++ m).take 32) = key := by
    rw [← hkey]; exact List.take_left key m
  have hdrop32 : ((key ++ m).drop 32) = m := by
    rw [← hkey]; exact List.drop_left key m
  rw [decrypt, if_neg (by omega), hdrop, if_pos (by rw [htake]), hdrop32]

theorem decrypt_short (key blob : Bytes) (h : blob.length < 12) :
    isError (decrypt key blob) = true := by
  simp [decrypt, h, isError]

theorem decrypt_wrong_key (key key' nonce m : Bytes)
    (hkey : key.length = 32) (_hkey' : key'.length = 32)
    (hnonce : nonce.length = 12) (hne : key ≠ key') :
    isError (decrypt key' (encrypt key nonce m)) = true := by
  have hlen := encrypt_length key nonce m hkey hnonce
  have hdrop := encrypt_drop key nonce m hnonce
  have htake : ((key ++ m).take 32) = key := by
    rw [← hkey]; exact List.take_left key m
  have hcond : ¬ ((encrypt key nonce m).drop 12).take 32 = key' := by
    rw [hdrop, htake]; exact hne
  rw [decrypt, if_neg (by omega), if_neg hcond, isError]

/-! ### SPAKE2 model (crypto.rs wrappers over the external spake2 crate) -/

/-- Pending PAKE state, as held by the crypto.rs SpakeState wrapper: the
password and the local random scalar of the symmetric run. -/
structure SpakeState where
  password : String
  r : Nat
deriving DecidableEq

/-- Numeric encoding of a password, standing in for the hash-to-scalar
blinding factor w of SPAKE2. -/
def pwEnc (s : String) : Nat :=
  s.data.foldl (fun a c => a * 2097152 + c.toNat + 1) 1

/-- Nat encoding of an integer, used to fold the signed blinding
difference into the derived-key bytes. -/
def intEnc (z : Int) : Nat :=
  2 * z.natAbs + (if z < 0 then 1 else 0)

/-- Derived key of one side of a symmetric SPAKE2 run: a function of the
local password blinding w, the local scalar r, and the peer message
components r' and w'.  The two sides compute the same value exactly when
their passwords agree (the blinding difference cancels); with differing
passwords each side unblinds with the wrong factor and the results
disagree. -/
def deriveKey (w r r' w' : Nat) : Bytes :=
  r * r' :: intEnc ((r : Int) * ((w' : Int) - (w : Int))) :: List.replicate 30 0

/-- crypto.rs start_spake2: starts a symmetric run with the constant
identity, ignoring the two id arguments exactly as the source does.  The
random scalar of the external crate is the explicit parameter r. -/
def start_spake2 (password : String) (_ida _idb : String) (r : Nat) :
    SpakeState × Bytes :=
  ({ password := password, r := r }, [r, pwEnc password])

/-- crypto.rs finish_spake2: consumes the state and the inbound message.
It fails only on a malformed message (the external crate rejects
corrupt group elements); with a well-formed message it always returns a
derived key, whether or not the passwords matched, because symmetric
SPAKE2 has no key confirmation. -/
def finish_spake2 (st : SpakeState) (inbound : Bytes) : Except String Bytes :=
  match inbound with
  | [r', w'] => .ok (deriveKey (pwEnc st.password) st.r r' w')
  | _ => .error "Spake error: corrupt message"

theorem finish_same_password (pw ida idb ida' idb' : String) (rA rB : Nat) :
    finish_spake2 (start_spake2 pw ida idb rA).1 (start_spake2 pw ida' idb' rB).2
      = .ok (deriveKey (pwEnc pw) rA rB (pwEnc pw))
    ∧ finish_spake2 (start_spake2 pw ida' idb' rB).1 (start_spake2 pw ida idb rA).2
      = .ok (deriveKey (pwEnc pw) rA rB (pwEnc pw)) := by
  constructor
  · rfl
  · show Except.ok (deriveKey (pwEnc pw) rB rA (pwEnc pw))
      = Except.ok (deriveKey (pwEnc pw) rA rB (pwEnc pw))
    have : deriveKey (pwEnc pw) rB rA (pwEnc pw)
        = deriveKey (pwEnc pw) rA rB (pwEnc pw) := by
      simp [deriveKey, Nat.mul_comm]
    rw [this]

/-! ### Freshness signatures (lib.rs generate_signature / verify_signature) -/

/-- The bounded clock-skew window of lib.rs verify_signature: at most
59 seconds in the past, or at most 9 seconds in the future. -/
def freshWindow (now ts : Nat) : Bool :=
  (decide (ts ≤ now) && decide (now - ts < 60))
    || (decide (now < ts) && decide (ts - now < 10))

/-- Rust str::split on the colon character: n separators yield n+1
pieces, empty pieces included. -/
def splitOnColon : List Char → List (List Char)
  | [] => [[]]
  | c :: rest =>
    if c = ':' then [] :: splitOnColon rest
    else
      match splitOnColon rest with
      | h :: t => (c :: h) :: t
      | [] => [[c]]

/-- Rust u64::from_str: all-decimal-digit parse, rejecting empty input
and values of 2^64 or more. -/
def charsToNat? (cs : List Char) : Option Nat :=
  if cs.isEmpty then none
  else if cs.all (fun c => c.isDigit) then
    let v := cs.foldl (fun a c => a * 10 + (c.toNat - 48)) 0
    if v < 2 ^ 64 then some v else none
  else none

/-- Byte view of a character list (String::as_bytes, symbolically by
code point). -/
def charsToBytes (cs : List Char) : Bytes :=
  cs.map Char.toNat

/-- String::from_utf8: succeeds only when every byte is a valid
character code. -/
def bytesToChars? (bs : Bytes) : Option (List Char) :=
  if bs.all (fun b => decide (Nat.isValidChar b)) then
    some (bs.map Char.ofNat)
  else none

/-- lib.rs generate_signature: encrypt the colon-joined id and unix
timestamp under the cluster key (base64 modelled as identity, the fresh
nonce and the clock as explicit parameters). -/
def generate_signature (key nonce : Bytes) (id : String) (ts : Nat) : Bytes :=
  encrypt key nonce (charsToBytes (id.data ++ ':' :: (Nat.repr ts).data))

/-- lib.rs verify_signature: decrypt, decode, split on the colon,
require exactly two parts, the embedded id to match, and the timestamp
to lie within the bounded skew window around now. -/
def verify_signature (key : Bytes) (id : String) (sig : Bytes) (now : Nat) : Bool :=
  match decrypt key sig with
  | .error _ => false
  | .ok bs =>
    match bytesToChars? bs with
    | none => false
    | some cs =>
      match splitOnColon cs with
      | [p0, p1] =>
        if p0 = id.data then
          match charsToNat? p1 with
          | some ts => freshWindow now ts
          | none => false
        else false
      | _ => false

theorem verify_signature_rotated_key (key key' nonce : Bytes) (id : String)
    (ts now : Nat) (hkey : key.length = 32) (hkey' : key'.length = 32)
    (hnonce : nonce.length = 12) (hne : key ≠ key') :
    verify_signature key' id (generate_signature key nonce id ts) now = false := by
  have herr := decrypt_wrong_key key key' nonce
    (charsToBytes (id.data ++ ':' :: (Nat.repr ts).data)) hkey hkey' hnonce hne
  rw [verify_signature, generate_signature]
  cases hd : decrypt key' (encrypt key nonce (charsToBytes (id.data ++ ':' :: (Nat.repr ts).data))) with
  | error e => rfl
  | ok bs => rw [hd, isError] at herr; cases herr

/-! ### Data model (peer.rs, protocol.rs, state.rs) -/

/-- Network source address (std::net::SocketAddr), with the IP rendered
opaquely as a string. -/
structure Addr where
  ip : String
  port : Nat
deriving DecidableEq

/-- SocketAddr::to_string, the key under which pending handshakes and
handshake sessions are stored. -/
def addrKey (a : Addr) : String :=
  a.ip ++ ":" ++ Nat.repr a.port

/-- peer.rs Peer.  The signature field is optional base64 (modelled as
decoded bytes), as constructed and read throughout lib.rs. -/
structure Peer where
  id : String
  ip : String
  port : Nat
  hostname : String
  last_seen : Nat
  is_trusted : Bool
  is_manual : Bool
  network_name : Option String
  signature : Option Bytes
deriving DecidableEq

/-- protocol.rs FileMetadata. -/
structure FileMetadata where
  name : String
  size : Nat
deriving DecidableEq

/-- protocol.rs ClipboardPayload. -/
structure ClipboardPayload where
  id : String
  text : String
  files : Option (List FileMetadata)
  timestamp : Nat
  sender : String
  sender_id : String
deriving DecidableEq

/-- protocol.rs FileStreamHeader (auth_token base64 modelled as decoded
bytes). -/
structure FileStreamHeader where
  id : String
  file_index : Nat
  file_name : String
  file_size : Nat
  auth_token : Bytes
deriving DecidableEq

/-- storage.rs AppSettings, restricted to the fields the modelled
handlers read. -/
structure AppSettings where
  auto_send : Bool
  auto_receive : Bool
  enable_file_transfer : Bool
  max_auto_download_size : Nat
  notify_large_files : Bool
deriving DecidableEq

/-- state.rs AppState together with the persisted files of storage.rs
(disk_ fields), the discovery registration, and the machine hostname
that get_hostname_internal reads from the environment. -/
structure AppState where
  peers : List (String × Peer)
  known_peers : List (String × Peer)
  pending_handshakes : List (String × SpakeState)
  handshake_sessions : List (String × Bytes)
  cluster_key : Option Bytes
  local_device_id : String
  last_clipboard_content : String
  network_name : String
  network_pin : String
  pending_removals : List (String × Nat)
  pending_clipboard : Option ClipboardPayload
  settings : AppSettings
  myHostname : String
  discovery_running : Bool
  discovery_registration : Option (String × String × Nat)
  disk_cluster_key : Option Bytes
  disk_network_name : Option String
  disk_network_pin : Option String
  disk_known_peers : List (String × Peer)
deriving DecidableEq

/-! ### Clipboard handler (lib.rs handle_message, Message::Clipboard) -/

/-- Content signature used by the dedupe register: the literal text, or
for a non-empty file batch the FILES: string folded from each file name
and size, exactly as built at lib.rs lines 2219-2232. -/
def content_signature_of (text : String) (files : Option (List FileMetadata)) : String :=
  match files with
  | some fs =>
    if fs.isEmpty then text
    else fs.foldl (fun acc f => acc ++ f.name ++ ":" ++ Nat.repr f.size ++ ";") "FILES:"
  | none => text

/-- Observable outcome of one inbound Clipboard message: the post state,
the relay targets, whether the text was written to the OS clipboard, and
how many FileRequest sends were issued. -/
structure ClipResult where
  state : AppState
  relays : List Addr
  delivered : Bool
  file_requests : Nat
deriving DecidableEq

/-- Total size of a file batch. -/
def sumSizes (fs : List FileMetadata) : Nat :=
  fs.foldl (fun a f => a + f.size) 0

/-- lib.rs Message::Clipboard handler from the point where the payload
has been decrypted and parsed (lines 2209-2385): self-sender check,
dedupe against the last-processed content signature, file auto-download,
text delivery or pending storage, then relay to every runtime peer
except the immediate sender when auto_send is on. -/
def handle_clipboard_payload (st : AppState) (p : ClipboardPayload) (addr : Addr) :
    ClipResult :=
  if p.sender = st.myHostname then
    ⟨st, [], false, 0⟩
  else
    let sig := content_signature_of p.text p.files
    if st.last_clipboard_content = sig then
      ⟨st, [], false, 0⟩
    else
      let st1 := { st with last_clipboard_content := sig }
      let fileReqs :=
        match p.files with
        | some fs =>
          if fs.isEmpty then 0
          else if st1.settings.enable_file_transfer
              && st1.settings.auto_receive
              && decide (sumSizes fs ≤ st1.settings.max_auto_download_size) then
            fs.length
          else 0
        | none => 0
      let delivered := !(p.text = "") && st1.settings.auto_receive
      let st2 :=
        if !(p.text = "") && !st1.settings.auto_receive then
          { st1 with pending_clipboard := some p }
        else st1
      if !st2.settings.auto_send then
        ⟨st2, [], delivered, fileReqs⟩
      else
        let relays := (st2.peers.map (fun kv => Addr.mk kv.2.ip kv.2.port)).filter
          (fun a => !(a = addr))
        ⟨st2, relays, delivered, fileReqs⟩

theorem clipboard_state_fields (st : AppState) (p : ClipboardPayload) (addr : Addr)
    (hself : p.sender ≠ st.myHostname) :
    (handle_clipboard_payload st p addr).state.last_clipboard_content
        = content_signature_of p.text p.files
    ∧ (handle_clipboard_payload st p addr).state.myHostname = st.myHostname := by
  rw [handle_clipboard_payload, if_neg hself]
  by_cases hdup : st.last_clipboard_content = content_signature_of p.text p.files
  · simp [if_pos hdup]
    exact hdup
  · simp only [if_neg hdup]
    by_cases hpend : (!(p.text = "") && !st.settings.auto_receive) = true
    · simp only [hpend, if_true]
      by_cases hsend : st.settings.auto_send <;> simp [hsend]
    · simp only [Bool.not_eq_true] at hpend
      simp only [hpend, if_false]
      by_cases hsend : st.settings.auto_send <;> simp [hsend]

/-! ### Peer discovery handler (lib.rs handle_message, Message::PeerDiscovery,
lines 2552-2670) -/

/-- The trust arbitration step of the PeerDiscovery handler (lib.rs
lines 2598-2621): valid only when the announcement carries a signature,
a 32-byte cluster key is loaded, and the signature verifies under it for
the announced id at the current time. -/
def signature_valid (sig ck : Option Bytes) (id : String) (now : Nat) : Bool :=
  match sig, ck with
  | some s, some key => (key.length == 32) && verify_signature key id s now
  | _, _ => false

/-- The record the PeerDiscovery handler stores for an announcement
peer0 received from addr at time now: the announced record with its
address overwritten from the packet source, last_seen stamped, is_manual
copied from the persisted entry (forced true when a manual placeholder
for the source ip is being replaced), and is_trusted re-derived from the
signature under the currently loaded cluster key.  The source mutates
the announced record field by field; the mutations are combined into one
record update (id and signature are never reassigned). -/
def discovered_peer (st : AppState) (peer0 : Peer) (addr : Addr) (now : Nat) : Peer :=
  { peer0 with
    ip := addr.ip, port := addr.port, last_seen := now,
    is_manual :=
      (if (lookupA st.known_peers ("manual-" ++ addr.ip)).isSome then true
        else
          (match lookupA st.known_peers peer0.id with
            | some existing => existing.is_manual
            | none => false)),
    is_trusted := signature_valid peer0.signature st.cluster_key peer0.id now }

/-- lib.rs PeerDiscovery handler: drop self-announcements, cancel any
pending debounce removal, rebuild the record as discovered_peer, remove
a manual placeholder for the source ip from both maps, compute
should_reply, then update RuntimePeers unconditionally and KnownPeers
(persisting) only for trusted-or-manual records, purging a stale
persisted entry otherwise.  Returns the new state and should_reply. -/
def handle_peer_discovery (st : AppState) (peer0 : Peer) (addr : Addr) (now : Nat) :
    AppState × Bool :=
  if peer0.id = st.local_device_id then (st, false)
  else
    let prs := eraseA st.pending_removals peer0.id
    let manualId := "manual-" ++ addr.ip
    let hasPlaceholder := (lookupA st.known_peers manualId).isSome
    let kp2 := if hasPlaceholder then eraseA st.known_peers manualId else st.known_peers
    let peers2 := if hasPlaceholder then eraseA st.peers manualId else st.peers
    let reply := hasPlaceholder
      || (!(lookupA kp2 peer0.id).isSome && !(lookupA peers2 peer0.id).isSome)
    let p4 := discovered_peer st peer0 addr now
    let peers3 := insertA peers2 peer0.id p4
    if p4.is_trusted || p4.is_manual then
      ({ st with pending_removals := prs, peers := peers3,
                 known_peers := insertA kp2 peer0.id p4,
                 disk_known_peers := insertA kp2 peer0.id p4 }, reply)
    else if (lookupA kp2 peer0.id).isSome then
      ({ st with pending_removals := prs, peers := peers3,
                 known_peers := eraseA kp2 peer0.id,
                 disk_known_peers := eraseA kp2 peer0.id }, reply)
    else
      ({ st with pending_removals := prs, peers := peers3, known_peers := kp2 }, reply)

theorem signature_valid_iff (sig ck : Option Bytes) (id : String) (now : Nat) :
    signature_valid sig ck id now = true ↔
      ∃ s key, sig = some s ∧ ck = some key ∧ key.length = 32
        ∧ verify_signature key id s now = true := by
  cases sig with
  | none => simp [signature_valid]
  | some s =>
    cases ck with
    | none => simp [signature_valid]
    | some key => simp [signature_valid, Bool.and_eq_true]

theorem handle_peer_discovery_lookup (st : AppState) (p : Peer) (addr : Addr)
    (now : Nat) (hself : p.id ≠ st.local_device_id) :
    lookupA (handle_peer_discovery st p addr now).1.peers p.id
      = some (discovered_peer st p addr now) := by
  unfold handle_peer_discovery
  rw [if_neg hself]
  dsimp only
  repeat' split
  all_goals simp [lookupA_insertA]

/-! ### Pruning pass (lib.rs run, background pruning task, lines 1789-1830) -/

/-- u64 wrapping subtraction, as now - last_seen is computed in release
builds. -/
def wsub (a b : Nat) : Nat :=
  (a + 2 ^ 64 - b % 2 ^ 64) % 2 ^ 64

theorem wsub_eq_sub (a b : Nat) (hle : b ≤ a) (ha : a < 2 ^ 64) :
    wsub a b = a - b := by
  have hb : b % 2 ^ 64 = b := Nat.mod_eq_of_lt (Nat.lt_of_le_of_lt hle ha)
  rw [wsub, hb]
  have h1 : a + 2 ^ 64 - b = (a - b) + 2 ^ 64 := by omega
  rw [h1, Nat.add_mod_right]
  exact Nat.mod_eq_of_lt (by omega)

/-- Removal of one collected stale peer (the body of the removal loop):
always drop it from RuntimePeers; drop it from KnownPeers only when it
was untrusted.  The accumulator is (KnownPeers, RuntimePeers). -/
def pruneStep (acc : List (String × Peer) × List (String × Peer))
    (kv : String × Peer) : List (String × Peer) × List (String × Peer) :=
  ((if kv.2.is_trusted then acc.1 else eraseA acc.1 kv.2.id),
    eraseA acc.2 kv.2.id)

/-- One iteration of the background pruning task: collect every runtime
peer whose staleness exceeds the timeout, then remove each collected
peer.  Returns (KnownPeers, RuntimePeers) after the pass. -/
def prune_pass (kp peers : List (String × Peer)) (now timeout : Nat) :
    List (String × Peer) × List (String × Peer) :=
  let stale := peers.filter (fun kv => decide (timeout < wsub now kv.2.last_seen))
  stale.foldl pruneStep (kp, peers)

theorem foldl_pruneStep_peers_none (l : List (String × Peer))
    (acc : List (String × Peer) × List (String × Peer)) (k : String)
    (h : lookupA acc.2 k = none) : lookupA (l.foldl pruneStep acc).2 k = none := by
  induction l generalizing acc with
  | nil => exact h
  | cons kv rest ih =>
    rw [List.foldl_cons]
    refine ih _ ?_
    rw [pruneStep]
    dsimp only
    rw [lookupA_eraseA]
    by_cases hk : k = kv.2.id
    · rw [if_pos hk]
    · rw [if_neg hk]; exact h

theorem foldl_pruneStep_kp_none (l : List (String × Peer))
    (acc : List (String × Peer) × List (String × Peer)) (k : String)
    (h : lookupA acc.1 k = none) : lookupA (l.foldl pruneStep acc).1 k = none := by
  induction l generalizing acc with
  | nil => exact h
  | cons kv rest ih =>
    rw [List.foldl_cons]
    refine ih _ ?_
    rw [pruneStep]
    dsimp only
    by_cases ht : kv.2.is_trusted = true
    · rw [if_pos ht]; exact h
    · rw [if_neg ht, lookupA_eraseA]
      by_cases hk : k = kv.2.id
      · rw [if_pos hk]
      · rw [if_neg hk]; exact h

theorem foldl_pruneStep_peers_mem (l : List (String × Peer))
    (acc : List (String × Peer) × List (String × Peer)) (k : String) (p : Peer)
    (hm : (k, p) ∈ l) (hid : p.id = k) :
    lookupA (l.foldl pruneStep acc).2 k = none := by
  induction l generalizing acc with
  | nil => simp at hm
  | cons kv rest ih =>
    rw [List.foldl_cons]
    cases hm with
    | head =>
      refine foldl_pruneStep_peers_none rest _ k ?_
      rw [pruneStep]
      dsimp only
      rw [hid, lookupA_eraseA, if_pos rfl]
    | tail _ hm' => exact ih _ hm'

theorem foldl_pruneStep_kp_mem (l : List (String × Peer))
    (acc : List (String × Peer) × List (String × Peer)) (k : String) (p : Peer)
    (hm : (k, p) ∈ l) (hu : p.is_trusted = false) (hid : p.id = k) :
    lookupA (l.foldl pruneStep acc).1 k = none := by
  induction l generalizing acc with
  | nil => simp at hm
  | cons kv rest ih =>
    rw [List.foldl_cons]
    cases hm with
    | head =>
      refine foldl_pruneStep_kp_none rest _ k ?_
      rw [pruneStep]
      dsimp only
      rw [hu, if_neg (by simp), hid, lookupA_eraseA, if_pos rfl]
    | tail _ hm' => exact ih _ hm'

theorem foldl_pruneStep_kp_preserved (l : List (String × Peer))
    (acc : List (String × Peer) × List (String × Peer)) (k : String)
    (h : ∀ kv ∈ l, kv.2.is_trusted = false → kv.2.id ≠ k) :
    lookupA (l.foldl pruneStep acc).1 k = lookupA acc.1 k := by
  induction l generalizing acc with
  | nil => rfl
  | cons kv rest ih =>
    rw [List.foldl_cons]
    rw [ih _ (fun kv' hmem => h kv' (List.mem_cons_of_mem _ hmem))]
    rw [pruneStep]
    dsimp only
    by_cases ht : kv.2.is_trusted = true
    · rw [if_pos ht]
    · have hne : kv.2.id ≠ k :=
        h kv (List.mem_cons_self _ _) (by simpa using ht)
      rw [if_neg ht, lookupA_eraseA, if_neg (fun hc => hne hc.symm)]

/-! ### Pairing handlers (lib.rs handle_message, Message::PairResponse and
Message::Welcome, lines 2464-2550) -/

/-- lib.rs PairResponse handler: take (and remove) the pending PAKE
state for the source address, finish the handshake, and on success store
the derived session key in handshake_sessions keyed by the address.
The returned Bool reports whether a pairing-failed signal was emitted. -/
def handle_pair_response (st : AppState) (msg : Bytes) (addr : Addr) :
    AppState × Bool :=
  match lookupA st.pending_handshakes (addrKey addr) with
  | none => (st, true)
  | some spakeSt =>
    let st1 := { st with
      pending_handshakes := eraseA st.pending_handshakes (addrKey addr) }
    match finish_spake2 spakeSt msg with
    | .ok sessionKey =>
      ({ st1 with
          handshake_sessions := insertA st1.handshake_sessions (addrKey addr) sessionKey },
        false)
    | .error _ => (st1, true)

/-- lib.rs Welcome handler, iterating the first runtime peer whose ip
matches the welcome sender: mark it trusted, stamp the network name, and
copy it into KnownPeers (HashMap iteration order modelled as list
order; the source breaks after the first match). -/
def markFirstTrusted : List (String × Peer) → List (String × Peer) → String → String →
    List (String × Peer) × List (String × Peer)
  | [], kp, _, _ => ([], kp)
  | (k, p) :: rest, kp, ip, nn =>
    if p.ip = ip then
      let p' := { p with is_trusted := true, network_name := some nn }
      ((k, p') :: rest, insertA kp k p')
    else
      let res := markFirstTrusted rest kp ip nn
      ((k, p) :: res.1, res.2)

/-- lib.rs Welcome handler: look up (without removing) the session key
for the source address, decrypt the cluster key under it, install and
persist cluster key, network name and PIN, re-register discovery, merge
the peer snapshot into KnownPeers and RuntimePeers, and trust the first
runtime peer at the sender ip.  The returned Bool reports whether a
pairing-failed signal was emitted. -/
def handle_welcome (st : AppState) (encrypted_cluster_key : Bytes)
    (wpeers : List Peer) (network_name network_pin : String) (addr : Addr)
    (port : Nat) : AppState × Bool :=
  match lookupA st.handshake_sessions (addrKey addr) with
  | none => (st, true)
  | some sk =>
    if sk.length == 32 then
      match decrypt sk encrypted_cluster_key with
      | .ok clusterKey =>
        let st1 := { st with
          cluster_key := some clusterKey,
          disk_cluster_key := some clusterKey,
          network_name := network_name,
          disk_network_name := some network_name,
          network_pin := network_pin,
          disk_network_pin := some network_pin }
        let st2 := { st1 with
          discovery_registration :=
            if st1.discovery_running then
              some (st1.local_device_id, network_name, port)
            else st1.discovery_registration }
        let kp1 := wpeers.foldl (fun m pr => insertA m pr.id pr) st2.known_peers
        let rp1 := wpeers.foldl (fun m pr => insertA m pr.id pr) st2.peers
        let res := markFirstTrusted rp1 kp1 addr.ip network_name
        ({ st2 with peers := res.1, known_peers := res.2, disk_known_peers := res.2 },
          false)
      | .error _ => (st, true)
    else (st, true)

/-! ### Factory reset and peer removal (lib.rs perform_factory_reset,
lines 1081-1131, and handle_message Message::PeerRemoval, lines
2672-2698) -/

/-- lib.rs perform_factory_reset: delete the persisted network state,
clear KnownPeers, mark all runtime peers untrusted, install and persist
a freshly generated cluster key, clear all pending handshakes and
handshake sessions, generate and persist a fresh network name and PIN,
and re-register discovery.  The fresh random values are explicit
parameters. -/
def perform_factory_reset (st : AppState) (freshKey : Bytes)
    (freshName freshPin : String) (port : Nat) : AppState :=
  { st with
    known_peers := [],
    disk_known_peers := [],
    peers := st.peers.map (fun kv => (kv.1, { kv.2 with is_trusted := false })),
    cluster_key := some freshKey,
    disk_cluster_key := some freshKey,
    pending_handshakes := [],
    handshake_sessions := [],
    network_name := freshName,
    disk_network_name := some freshName,
    network_pin := freshPin,
    disk_network_pin := some freshPin,
    discovery_registration :=
      if st.discovery_running then some (st.local_device_id, freshName, port)
      else st.discovery_registration }

/-- lib.rs PeerRemoval handler: a removal naming the local device
triggers a full factory reset; otherwise the target is removed from
KnownPeers (persisting when present) and RuntimePeers. -/
def handle_peer_removal (st : AppState) (target : String) (freshKey : Bytes)
    (freshName freshPin : String) (port : Nat) : AppState :=
  if target = st.local_device_id then
    perform_factory_reset st freshKey freshName freshPin port
  else
    let kp' := eraseA st.known_peers target
    let diskKp :=
      if (lookupA st.known_peers target).isSome then kp' else st.disk_known_peers
    { st with known_peers := kp', disk_known_peers := diskKp,
              peers := eraseA st.peers target }

/-! ### Incoming file stream (lib.rs handle_incoming_file_stream,
lines 2043-2167) -/

/-- lib.rs auth-token check: the base64 token (modelled as decoded
bytes) must decrypt under the 32-byte cluster key to an 8-byte
plaintext.  The embedded timestamp is never inspected: the source
carries a TODO instead of a freshness comparison. -/
def auth_token_ok (cluster_key : Option Bytes) (token : Bytes) : Bool :=
  match cluster_key with
  | none => false
  | some key =>
    if key.length == 32 then
      match decrypt key token with
      | .ok pt => pt.length == 8
      | .error _ => false
    else false

/-- lib.rs handle_incoming_file_stream after the header parse: reject
the stream unless the auth token check passes; otherwise stream the body
to disk and report the byte count received together with the result of
comparing it against the declared file_size. -/
def handle_incoming_file_stream (cluster_key : Option Bytes)
    (header : FileStreamHeader) (body : Bytes) : Option (Nat × Bool) :=
  if auth_token_ok cluster_key header.auth_token then
    some (body.length, body.length == header.file_size)
  else none

/-- Little-endian u64 byte encoding (u64::to_le_bytes), used for the
auth-token timestamp payload. -/
def leBytes8 (n : Nat) : Bytes :=
  [n % 256, n / 256 % 256, n / 256 ^ 2 % 256, n / 256 ^ 3 % 256,
    n / 256 ^ 4 % 256, n / 256 ^ 5 % 256, n / 256 ^ 6 % 256, n / 256 ^ 7 % 256]

/-! ### Concrete values used by the witness theorems -/

/-- A concrete 32-byte cluster key. -/
def keyA : Bytes := List.replicate 32 1

/-- A second, different concrete 32-byte cluster key. -/
def keyB : Bytes := List.replicate 32 2

/-- A concrete 12-byte nonce. -/
def nonce12 : Bytes := List.replicate 12 0

/-- Default settings (storage.rs AppSettings::default, restricted). -/
def baseSettings : AppSettings :=
  { auto_send := true, auto_receive := true, enable_file_transfer := true,
    max_auto_download_size := 52428800, notify_large_files := true }

/-- A concrete freshly started application state. -/
def baseState : AppState :=
  { peers := [], known_peers := [], pending_handshakes := [],
    handshake_sessions := [], cluster_key := none,
    local_device_id := "local-device", last_clipboard_content := "",
    network_name := "net", network_pin := "pin123", pending_removals := [],
    pending_clipboard := none, settings := baseSettings,
    myHostname := "local-host", discovery_running := true,
    discovery_registration := none, disk_cluster_key := none,
    disk_network_name := none, disk_network_pin := none,
    disk_known_peers := [] }

/-- A concrete remote address. -/
def addr0 : Addr := { ip := "10.0.0.7", port := 4000 }

/-! ### Claim theorems -/

/-- C5: for every 32-byte key and every byte string m (empty included),
decrypt inverts encrypt; decrypt fails on any blob shorter than 12
bytes; and decrypt fails closed on tag mismatch, in particular under a
key different from the one used to encrypt. -/
theorem aead_roundtrip_and_fail_closed :
    (∀ key nonce m : Bytes, key.length = 32 → nonce.length = 12 →
      decrypt key (encrypt key nonce m) = .ok m)
    ∧ (∀ key blob : Bytes, blob.length < 12 → isError (decrypt key blob) = true)
    ∧ (∀ key key' nonce m : Bytes, key.length = 32 → key'.length = 32 →
        nonce.length = 12 → key ≠ key' →
        isError (decrypt key' (encrypt key nonce m)) = true) :=
  ⟨decrypt_encrypt, decrypt_short, decrypt_wrong_key⟩

theorem aead_roundtrip_witness :
    decrypt keyA (encrypt keyA nonce12 [7, 8]) = .ok [7, 8]
    ∧ decrypt keyA (encrypt keyA nonce12 []) = .ok []
    ∧ isError (decrypt keyA [1, 2, 3]) = true
    ∧ isError (decrypt keyB (encrypt keyA nonce12 [7, 8])) = true :=
  ⟨aead_roundtrip_and_fail_closed.1 keyA nonce12 [7, 8] (by decide) (by decide),
    aead_roundtrip_and_fail_closed.1 keyA nonce12 [] (by decide) (by decide),
    aead_roundtrip_and_fail_closed.2.1 keyA [1, 2, 3] (by decide),
    aead_roundtrip_and_fail_closed.2.2 keyA keyB nonce12 [7, 8]
      (by decide) (by decide) (by decide) (by decide)⟩

/-- C2 counterexample: with two different passwords, both finish calls
succeed (no error is raised) and return silently differing keys, so the
claim that finish fails with an error on a password mismatch is false.
Symmetric SPAKE2 as used by crypto.rs has no key confirmation. -/
theorem spake_password_mismatch_not_detected :
    ("alpha1" : String) ≠ "bravo2"
    ∧ isError (finish_spake2 (start_spake2 "alpha1" "ida" "idb" 2).1
        (start_spake2 "bravo2" "ida" "idb" 3).2) = false
    ∧ isError (finish_spake2 (start_spake2 "bravo2" "ida" "idb" 3).1
        (start_spake2 "alpha1" "ida" "idb" 2).2) = false
    ∧ (finish_spake2 (start_spake2 "alpha1" "ida" "idb" 2).1
        (start_spake2 "bravo2" "ida" "idb" 3).2).toOption
      ≠ (finish_spake2 (start_spake2 "bravo2" "ida" "idb" 3).1
        (start_spake2 "alpha1" "ida" "idb" 2).2).toOption := by
  refine ⟨by decide, rfl, rfl, ?_⟩
  show some (deriveKey (pwEnc "alpha1") 2 3 (pwEnc "bravo2"))
    ≠ some (deriveKey (pwEnc "bravo2") 3 2 (pwEnc "alpha1"))
  decide

/-- C2 amended: two start/finish runs with the same password both
succeed and derive identical keys; with differing passwords both finish
calls can still succeed, returning silently differing keys (the
mismatch is only detected later, when the Welcome payload fails to
decrypt under the mismatched key). -/
theorem spake_agreement :
    (∀ (pw ida idb ida' idb' : String) (rA rB : Nat),
      ∃ k, finish_spake2 (start_spake2 pw ida idb rA).1
            (start_spake2 pw ida' idb' rB).2 = .ok k
        ∧ finish_spake2 (start_spake2 pw ida' idb' rB).1
            (start_spake2 pw ida idb rA).2 = .ok k)
    ∧ (∃ (pwA pwB : String) (rA rB : Nat) (kA kB : Bytes),
        pwA ≠ pwB ∧ kA ≠ kB
        ∧ finish_spake2 (start_spake2 pwA "i" "j" rA).1
            (start_spake2 pwB "i" "j" rB).2 = .ok kA
        ∧ finish_spake2 (start_spake2 pwB "i" "j" rB).1
            (start_spake2 pwA "i" "j" rA).2 = .ok kB) := by
  constructor
  · intro pw ida idb ida' idb' rA rB
    exact ⟨deriveKey (pwEnc pw) rA rB (pwEnc pw),
      (finish_same_password pw ida idb ida' idb' rA rB).1,
      (finish_same_password pw ida idb ida' idb' rA rB).2⟩
  · exact ⟨"a", "b", 1, 1, deriveKey (pwEnc "a") 1 1 (pwEnc "b"),
      deriveKey (pwEnc "b") 1 1 (pwEnc "a"), by decide, by decide, rfl, rfl⟩

/-- C3: the incoming file stream handler accepts the body after a token
check that never inspects the embedded timestamp (the freshness
comparison is an unimplemented TODO in the source): a token minted at
unix time 0 is still accepted at receive time 1000000, far outside the
bounded freshness window the repository uses elsewhere.  The byte-count
verification against the declared file_size does happen on completion,
and a token that does not decrypt under the cluster key is rejected. -/
theorem file_stream_accepts_stale_token :
    freshWindow 1000000 0 = false
    ∧ handle_incoming_file_stream (some keyA)
        { id := "batch", file_index := 0, file_name := "f.txt", file_size := 3,
          auth_token := encrypt keyA nonce12 (leBytes8 0) } [9, 9, 9]
      = some (3, true)
    ∧ handle_incoming_file_stream (some keyA)
        { id := "batch", file_index := 0, file_name := "f.txt", file_size := 5,
          auth_token := encrypt keyA nonce12 (leBytes8 0) } [9, 9, 9]
      = some (3, false)
    ∧ handle_incoming_file_stream (some keyA)
        { id := "batch", file_index := 0, file_name := "f.txt", file_size := 3,
          auth_token := encrypt keyB nonce12 (leBytes8 0) } [9, 9, 9]
      = none := by
  decide

/-- C10: an inbound clipboard payload whose sender hostname equals the
local hostname is discarded before the dedupe register update, before
local delivery and before any relay: the handler returns the state
unchanged with no effects. -/
theorem clipboard_self_sender_dropped :
    ∀ (st : AppState) (p : ClipboardPayload) (addr : Addr),
      p.sender = st.myHostname →
      handle_clipboard_payload st p addr =
        { state := st, relays := [], delivered := false, file_requests := 0 } := by
  intro st p addr h
  rw [handle_clipboard_payload, if_pos h]

theorem clipboard_self_sender_dropped_witness :
    handle_clipboard_payload baseState
      { id := "m1", text := "hello", files := none, timestamp := 5,
        sender := "local-host", sender_id := "x" } addr0 =
      { state := baseState, relays := [], delivered := false, file_requests := 0 } :=
  clipboard_self_sender_dropped baseState
    { id := "m1", text := "hello", files := none, timestamp := 5,
      sender := "local-host", sender_id := "x" } addr0 rfl

theorem clipboard_dup_dropped (st : AppState) (p : ClipboardPayload) (addr : Addr)
    (hself : p.sender ≠ st.myHostname)
    (hdup : st.last_clipboard_content = content_signature_of p.text p.files) :
    handle_clipboard_payload st p addr =
      { state := st, relays := [], delivered := false, file_requests := 0 } := by
  rw [handle_clipboard_payload, if_neg hself, if_pos hdup]

/-- C6: an inbound clipboard payload whose content signature (the
literal text, or the name-and-size string for a non-empty file batch)
equals the last-processed register is dropped with no relay sends and no
state change; consequently a second delivery of the same content
signature right after a first one relays to nobody. -/
theorem clipboard_dedupe_no_relay :
    (∀ (st : AppState) (p : ClipboardPayload) (addr : Addr),
      p.sender ≠ st.myHostname →
      st.last_clipboard_content = content_signature_of p.text p.files →
      handle_clipboard_payload st p addr =
        { state := st, relays := [], delivered := false, file_requests := 0 })
    ∧ (∀ (st : AppState) (p p2 : ClipboardPayload) (addr addr2 : Addr),
      p.sender ≠ st.myHostname → p2.sender ≠ st.myHostname →
      content_signature_of p2.text p2.files = content_signature_of p.text p.files →
      (handle_clipboard_payload
        (handle_clipboard_payload st p addr).state p2 addr2).relays = []) := by
  refine ⟨clipboard_dup_dropped, ?_⟩
  intro st p p2 addr addr2 hself hself2 hsig
  have hf := clipboard_state_fields st p addr hself
  have hself2' : p2.sender ≠ (handle_clipboard_payload st p addr).state.myHostname := by
    rw [hf.2]; exact hself2
  have hdup2 : (handle_clipboard_payload st p addr).state.last_clipboard_content
      = content_signature_of p2.text p2.files := by
    rw [hf.1, hsig]
  rw [clipboard_dup_dropped _ p2 addr2 hself2' hdup2]

theorem clipboard_dedupe_no_relay_witness :
    handle_clipboard_payload { baseState with last_clipboard_content := "dup" }
      { id := "m2", text := "dup", files := none, timestamp := 6,
        sender := "peer-host", sender_id := "y" } addr0 =
      { state := { baseState with last_clipboard_content := "dup" },
        relays := [], delivered := false, file_requests := 0 }
    ∧ (handle_clipboard_payload
        (handle_clipboard_payload baseState
          { id := "m3", text := "fresh", files := none, timestamp := 7,
            sender := "peer-host", sender_id := "y" } addr0).state
        { id := "m4", text := "fresh", files := none, timestamp := 8,
          sender := "other-host", sender_id := "z" } addr0).relays = [] :=
  ⟨clipboard_dedupe_no_relay.1 { baseState with last_clipboard_content := "dup" }
      { id := "m2", text := "dup", files := none, timestamp := 6,
        sender := "peer-host", sender_id := "y" } addr0 (by decide) (by decide),
    clipboard_dedupe_no_relay.2 baseState
      { id := "m3", text := "fresh", files := none, timestamp := 7,
        sender := "peer-host", sender_id := "y" }
      { id := "m4", text := "fresh", files := none, timestamp := 8,
        sender := "other-host", sender_id := "z" } addr0 addr0
      (by decide) (by decide) (by decide)⟩

/-- C9 counterexample: a Welcome from an address whose session key is
stored is processed successfully (no pairing-failed signal), yet the
handshake_sessions table still contains the entry for that address
afterwards: the Welcome handler only reads the session key and never
removes it, so it is not discarded after consumption. -/
theorem welcome_retains_session_key :
    (handle_welcome { baseState with handshake_sessions := [(addrKey addr0, keyA)] }
        (encrypt keyA nonce12 (List.replicate 32 5)) [] "net2" "pin2" addr0 4100).2
      = false
    ∧ lookupA (handle_welcome
          { baseState with handshake_sessions := [(addrKey addr0, keyA)] }
          (encrypt keyA nonce12 (List.replicate 32 5)) [] "net2" "pin2" addr0
          4100).1.handshake_sessions (addrKey addr0)
      ≠ none := by
  decide

/-- C9 amended: a session key is created keyed by the remote address
after a successful PairResponse, and the subsequent Welcome from that
address decrypts the cluster key under it; but the Welcome handler does
not remove the entry — the handshake_sessions table is left unchanged by
every Welcome, the key being cleared only by a factory reset. -/
theorem session_key_created_then_retained :
    (∀ (st : AppState) (msg : Bytes) (addr : Addr) (spakeSt : SpakeState)
        (sessionKey : Bytes),
      lookupA st.pending_handshakes (addrKey addr) = some spakeSt →
      finish_spake2 spakeSt msg = .ok sessionKey →
      lookupA (handle_pair_response st msg addr).1.handshake_sessions (addrKey addr)
        = some sessionKey)
    ∧ (∀ (st : AppState) (ecck : Bytes) (wpeers : List Peer)
        (nn np : String) (addr : Addr) (port : Nat),
      (handle_welcome st ecck wpeers nn np addr port).1.handshake_sessions
        = st.handshake_sessions) := by
  constructor
  · intro st msg addr spakeSt sessionKey hpend hfin
    rw [handle_pair_response, hpend]
    dsimp only
    rw [hfin]
    dsimp only
    simp [lookupA_insertA]
  · intro st ecck wpeers nn np addr port
    unfold handle_welcome
    split
    · rfl
    · split
      · split
        · rfl
        · rfl
      · rfl

theorem session_key_created_then_retained_witness :
    lookupA (handle_pair_response
        { baseState with
            pending_handshakes := [(addrKey addr0, { password := "pw", r := 2 })] }
        [3, pwEnc "pw"] addr0).1.handshake_sessions (addrKey addr0)
      = some (deriveKey (pwEnc "pw") 2 3 (pwEnc "pw"))
    ∧ (handle_welcome { baseState with handshake_sessions := [(addrKey addr0, keyA)] }
        (encrypt keyA nonce12 (List.replicate 32 5)) [] "net2" "pin2" addr0
        4100).1.handshake_sessions
      = [(addrKey addr0, keyA)] :=
  ⟨session_key_created_then_retained.1
      { baseState with
          pending_handshakes := [(addrKey addr0, { password := "pw", r := 2 })] }
      [3, pwEnc "pw"] addr0 { password := "pw", r := 2 }
      (deriveKey (pwEnc "pw") 2 3 (pwEnc "pw")) (by decide) rfl,
    session_key_created_then_retained.2
      { baseState with handshake_sessions := [(addrKey addr0, keyA)] }
      (encrypt keyA nonce12 (List.replicate 32 5)) [] "net2" "pin2" addr0 4100⟩

/-- C4: a PeerRemoval naming the local device performs a full factory
reset: KnownPeers emptied, pending handshakes and handshake sessions
cleared, the freshly generated cluster key installed and persisted, the
fresh cluster name and PIN installed and persisted, and discovery
re-registered under the new name — so whenever the freshly drawn values
differ from the old ones (as fresh randomness does), the post-kick
cluster key, name and PIN differ from their pre-kick values. -/
theorem peer_removal_self_factory_reset :
    ∀ (st : AppState) (freshKey : Bytes) (freshName freshPin : String) (port : Nat),
      st.discovery_running = true →
      (handle_peer_removal st st.local_device_id freshKey freshName freshPin
          port).known_peers = []
      ∧ (handle_peer_removal st st.local_device_id freshKey freshName freshPin
          port).pending_handshakes = []
      ∧ (handle_peer_removal st st.local_device_id freshKey freshName freshPin
          port).handshake_sessions = []
      ∧ (handle_peer_removal st st.local_device_id freshKey freshName freshPin
          port).cluster_key = some freshKey
      ∧ (handle_peer_removal st st.local_device_id freshKey freshName freshPin
          port).disk_cluster_key = some freshKey
      ∧ (handle_peer_removal st st.local_device_id freshKey freshName freshPin
          port).network_name = freshName
      ∧ (handle_peer_removal st st.local_device_id freshKey freshName freshPin
          port).disk_network_name = some freshName
      ∧ (handle_peer_removal st st.local_device_id freshKey freshName freshPin
          port).network_pin = freshPin
      ∧ (handle_peer_removal st st.local_device_id freshKey freshName freshPin
          port).disk_network_pin = some freshPin
      ∧ (handle_peer_removal st st.local_device_id freshKey freshName freshPin
          port).discovery_registration = some (st.local_device_id, freshName, port)
      ∧ (some freshKey ≠ st.cluster_key →
          (handle_peer_removal st st.local_device_id freshKey freshName freshPin
            port).cluster_key ≠ st.cluster_key)
      ∧ (freshName ≠ st.network_name →
          (handle_peer_removal st st.local_device_id freshKey freshName freshPin
            port).network_name ≠ st.network_name)
      ∧ (freshPin ≠ st.network_pin →
          (handle_peer_removal st st.local_device_id freshKey freshName freshPin
            port).network_pin ≠ st.network_pin) := by
  intro st freshKey freshName freshPin port hdisc
  rw [handle_peer_removal, if_pos rfl, perform_factory_reset]
  refine ⟨rfl, rfl, rfl, rfl, rfl, rfl, rfl, rfl, rfl, by simp [hdisc], ?_, ?_, ?_⟩
  · intro h; exact h
  · intro h; exact h
  · intro h; exact h

theorem peer_removal_self_factory_reset_witness :
    (handle_peer_removal
        { baseState with cluster_key := some keyA, known_peers := [("q", {
            id := "q", ip := "10.0.0.9", port := 1, hostname := "h",
            last_seen := 0, is_trusted := true, is_manual := false,
            network_name := none, signature := none })] }
        "local-device" keyB "newnet" "newpin" 4500).known_peers = []
    ∧ (handle_peer_removal
        { baseState with cluster_key := some keyA, known_peers := [("q", {
            id := "q", ip := "10.0.0.9", port := 1, hostname := "h",
            last_seen := 0, is_trusted := true, is_manual := false,
            network_name := none, signature := none })] }
        "local-device" keyB "newnet" "newpin" 4500).cluster_key
      ≠ some keyA := by
  have h := peer_removal_self_factory_reset
    { baseState with cluster_key := some keyA, known_peers := [("q", {
        id := "q", ip := "10.0.0.9", port := 1, hostname := "h",
        last_seen := 0, is_trusted := true, is_manual := false,
        network_name := none, signature := none })] }
    keyB "newnet" "newpin" 4500 rfl
  exact ⟨h.1, h.2.2.2.2.2.2.2.2.2.2.1 (by decide)⟩

/-- A concrete peer announcement carrying a signature freshly generated
under keyA at unix time 100. -/
def peerD : Peer :=
  { id := "dev1", ip := "10.9.9.9", port := 1, hostname := "d1",
    last_seen := 0, is_trusted := false, is_manual := false,
    network_name := none,
    signature := some (generate_signature keyA nonce12 "dev1" 100) }

/-- A concrete state holding cluster key keyA. -/
def stC1 : AppState := { baseState with cluster_key := some keyA }

/-- C1: after the PeerDiscovery handler completes, the stored record is
trusted exactly when the announcement carried a signature that verifies
under the currently loaded cluster key — trust is re-derived on every
message, never remembered; and a signature generated under one cluster
key verifies false under any different (rotated) key. -/
theorem trust_rederived_every_message :
    (∀ (st : AppState) (p : Peer) (addr : Addr) (now : Nat),
      p.id ≠ st.local_device_id →
      lookupA (handle_peer_discovery st p addr now).1.peers p.id
        = some (discovered_peer st p addr now)
      ∧ ((discovered_peer st p addr now).is_trusted = true ↔
          ∃ sig key, p.signature = some sig ∧ st.cluster_key = some key
            ∧ key.length = 32 ∧ verify_signature key p.id sig now = true))
    ∧ (∀ (key key' nonce : Bytes) (id : String) (ts now : Nat),
        key.length = 32 → key'.length = 32 → nonce.length = 12 → key ≠ key' →
        verify_signature key' id (generate_signature key nonce id ts) now = false) := by
  constructor
  · intro st p addr now hself
    refine ⟨handle_peer_discovery_lookup st p addr now hself, ?_⟩
    have h : (discovered_peer st p addr now).is_trusted
        = signature_valid p.signature st.cluster_key p.id now := rfl
    rw [h, signature_valid_iff]
  · exact verify_signature_rotated_key

theorem trust_rederived_witness :
    (lookupA (handle_peer_discovery stC1 peerD addr0 120).1.peers "dev1"
        = some (discovered_peer stC1 peerD addr0 120)
      ∧ ((discovered_peer stC1 peerD addr0 120).is_trusted = true ↔
          ∃ sig key, peerD.signature = some sig ∧ stC1.cluster_key = some key
            ∧ key.length = 32 ∧ verify_signature key "dev1" sig 120 = true))
    ∧ verify_signature keyB "dev1" (generate_signature keyA nonce12 "dev1" 100) 120
      = false
    ∧ (discovered_peer stC1 peerD addr0 120).is_trusted = true :=
  ⟨trust_rederived_every_message.1 stC1 peerD addr0 120 (by decide),
    trust_rederived_every_message.2 keyA keyB nonce12 "dev1" 100 120
      (by decide) (by decide) (by decide) (by decide),
    by decide⟩

/-- A concrete peer announcement self-reporting a spoofed address. -/
def peerSpoof : Peer :=
  { id := "dev2", ip := "99.99.99.99", port := 9999, hostname := "d2",
    last_seen := 77, is_trusted := false, is_manual := false,
    network_name := none, signature := none }

/-- C8: the record stored by the PeerDiscovery handler carries the
packet source address and port, not the payload's self-reported ones,
and its last_seen is the current time. -/
theorem address_overwritten_from_source :
    ∀ (st : AppState) (p : Peer) (addr : Addr) (now : Nat),
      p.id ≠ st.local_device_id →
      lookupA (handle_peer_discovery st p addr now).1.peers p.id
        = some (discovered_peer st p addr now)
      ∧ (discovered_peer st p addr now).ip = addr.ip
      ∧ (discovered_peer st p addr now).port = addr.port
      ∧ (discovered_peer st p addr now).last_seen = now := by
  intro st p addr now hself
  exact ⟨handle_peer_discovery_lookup st p addr now hself, rfl, rfl, rfl⟩

theorem address_overwritten_witness :
    lookupA (handle_peer_discovery baseState peerSpoof addr0 500).1.peers "dev2"
      = some (discovered_peer baseState peerSpoof addr0 500)
    ∧ (discovered_peer baseState peerSpoof addr0 500).ip = "10.0.0.7"
    ∧ (discovered_peer baseState peerSpoof addr0 500).port = 4000
    ∧ (discovered_peer baseState peerSpoof addr0 500).last_seen = 500 :=
  address_overwritten_from_source baseState peerSpoof addr0 500 (by decide)

/-- C7: after one pruning pass, every runtime peer whose staleness
exceeds the timeout is gone from RuntimePeers; a trusted stale peer
keeps its KnownPeers entry untouched, while an untrusted stale peer is
removed from KnownPeers as well.  The hypotheses record the HashMap
invariants: keys are unique and each record is stored under its own
id. -/
theorem prune_pass_asymmetry :
    ∀ (kp peers : List (String × Peer)) (now timeout : Nat)
      (aId bId : String) (pa pb : Peer),
      (peers.map Prod.fst).Nodup →
      (∀ kv ∈ peers, kv.2.id = kv.1) →
      now < 2 ^ 64 →
      lookupA peers aId = some pa → pa.is_trusted = true →
      pa.last_seen ≤ now → timeout < now - pa.last_seen →
      lookupA peers bId = some pb → pb.is_trusted = false →
      pb.last_seen ≤ now → timeout < now - pb.last_seen →
      (∀ (k : String) (p : Peer), lookupA peers k = some p →
          p.last_seen ≤ now → timeout < now - p.last_seen →
          lookupA (prune_pass kp peers now timeout).2 k = none)
      ∧ lookupA (prune_pass kp peers now timeout).2 aId = none
      ∧ lookupA (prune_pass kp peers now timeout).1 aId = lookupA kp aId
      ∧ lookupA (prune_pass kp peers now timeout).2 bId = none
      ∧ lookupA (prune_pass kp peers now timeout).1 bId = none := by
  intro kp peers now timeout aId bId pa pb hnd hkeys hnow
  intro hpa hpat hpale hpast hpb hpbt hpble hpbst
  have hstale : ∀ (k : String) (p : Peer), lookupA peers k = some p →
      p.last_seen ≤ now → timeout < now - p.last_seen →
      (k, p) ∈ peers.filter (fun kv => decide (timeout < wsub now kv.2.last_seen)) := by
    intro k p hlk hle hst
    refine List.mem_filter.mpr ⟨mem_of_lookupA hlk, ?_⟩
    rw [wsub_eq_sub _ _ hle hnow]
    exact decide_eq_true hst
  have hgen : ∀ (k : String) (p : Peer), lookupA peers k = some p →
      p.last_seen ≤ now → timeout < now - p.last_seen →
      lookupA (prune_pass kp peers now timeout).2 k = none := by
    intro k p hlk hle hst
    exact foldl_pruneStep_peers_mem _ (kp, peers) k p (hstale k p hlk hle hst)
      (hkeys (k, p) (mem_of_lookupA hlk))
  refine ⟨hgen, hgen aId pa hpa hpale hpast, ?_, hgen bId pb hpb hpble hpbst, ?_⟩
  · refine foldl_pruneStep_kp_preserved _ (kp, peers) aId ?_
    intro kv hkvf hunt hkid
    have hkvm : kv ∈ peers := List.mem_of_mem_filter hkvf
    have hk1 : kv.1 = aId := by rw [← hkeys kv hkvm]; exact hkid
    have hlkv : lookupA peers aId = some kv.2 := by
      rw [← hk1]
      exact lookupA_eq_of_mem hnd (by simpa using hkvm)
    rw [hpa] at hlkv
    have : kv.2 = pa := by
      injection hlkv with hv
      exact hv.symm
    rw [this, hpat] at hunt
    cases hunt
  · exact foldl_pruneStep_kp_mem _ (kp, peers) bId pb
      (hstale bId pb hpb hpble hpbst) hpbt (hkeys (bId, pb) (mem_of_lookupA hpb))

/-- A concrete trusted peer silent since unix time 10. -/
def peerTrustedStale : Peer :=
  { id := "a", ip := "10.0.0.2", port := 1, hostname := "ha", last_seen := 10,
    is_trusted := true, is_manual := false, network_name := none, signature := none }

/-- A concrete untrusted peer silent since unix time 20. -/
def peerUntrustedStale : Peer :=
  { id := "b", ip := "10.0.0.3", port := 2, hostname := "hb", last_seen := 20,
    is_trusted := false, is_manual := false, network_name := none, signature := none }

theorem prune_pass_asymmetry_witness :
    lookupA (prune_pass
        [("a", peerTrustedStale), ("b", peerUntrustedStale)]
        [("a", peerTrustedStale), ("b", peerUntrustedStale)] 1000 300).2 "a" = none
    ∧ lookupA (prune_pass
        [("a", peerTrustedStale), ("b", peerUntrustedStale)]
        [("a", peerTrustedStale), ("b", peerUntrustedStale)] 1000 300).1 "a"
      = lookupA [("a", peerTrustedStale), ("b", peerUntrustedStale)] "a"
    ∧ lookupA (prune_pass
        [("a", peerTrustedStale), ("b", peerUntrustedStale)]
        [("a", peerTrustedStale), ("b", peerUntrustedStale)] 1000 300).2 "b" = none
    ∧ lookupA (prune_pass
        [("a", peerTrustedStale), ("b", peerUntrustedStale)]
        [("a", peerTrustedStale), ("b", peerUntrustedStale)] 1000 300).1 "b"
      = none := by
  have h := prune_pass_asymmetry
    [("a", peerTrustedStale), ("b", peerUntrustedStale)]
    [("a", peerTrustedStale), ("b", peerUntrustedStale)] 1000 300 "a" "b"
    peerTrustedStale peerUntrustedStale (by decide) (by decide) (by decide)
    (by decide) (by decide) (by decide) (by decide)
    (by decide) (by decide) (by decide) (by decide)
  exact ⟨h.2.1, h.2.2.1, h.2.2.2.1, h.2.2.2.2⟩

end Ucp
